import Mathlib

/-!
Shallow embedding of `figure_functions.py` (Visual_Helpers repository).

Modelling conventions:
* A pandas row is a total valuation of column names, `Row := String → ℚ`;
  a `DataFrame` carries the list of column names together with the rows.
  Floating point numbers are idealised as rationals.
* Python code that raises (missing column `KeyError`, `np.arange` with zero
  step, `np.histogram` with non-monotonic bin edges, `np.select` with an
  empty condition list) is modelled by returning `none`.
* `np.random.randint(0, 8)` is modelled by an explicit stream
  `rand : ℕ → ℕ` together with a position into the stream; the unbounded
  retry loop of `find_color` receives explicit fuel (the loop terminates
  exactly when some prefix of the stream contains a fresh colour index).
* The rgba colour dictionary is represented by the chosen colour index
  (the dictionary is obtained from the index by an injective table lookup,
  so nothing is lost).
-/

/-- A pandas row: a valuation of column names by (rational) numbers. -/
def Row : Type := String → ℚ

/-- A pandas DataFrame: the list of column names and the list of rows. -/
structure DataFrame where
  cols : List String
  rows : List Row

/-- Column membership test (`x_var in df.columns`); accessing a missing
column raises a `KeyError` in pandas, modelled as `none` at use sites. -/
def DataFrame.hasCol (df : DataFrame) (c : String) : Bool :=
  df.cols.contains c

/-- `np.arange(start, stop, step)` for a positive step: the values
`start + k * step` for `0 ≤ k < ⌈(stop - start) / step⌉`.  A zero step
raises in numpy and a negative step never occurs on a path the embedding
has to follow with an array result, so those both give `[]` here (the
callers below guard them to `none`). -/
def arangeQ (start stop step : ℚ) : List ℚ :=
  if 0 < step then
    (List.range (Int.toNat ⌈(stop - start) / step⌉)).map
      (fun k : ℕ => start + (k : ℚ) * step)
  else []

/-- `pandas.Series.max`: `none` on an empty column (pandas yields NaN and
`math.ceil` then raises). -/
def maxQ : List ℚ → Option ℚ
  | [] => none
  | x :: xs => some (xs.foldl max x)

/-- Bin index of a value for `np.histogram` with explicit edges: half-open
intervals `[e_i, e_{i+1})` except the last interval which is closed;
values outside the edge range are not counted (`none`). -/
def histIndexAux : List ℚ → ℕ → ℚ → Option ℕ
  | [a, b], i, x => if a ≤ x ∧ x ≤ b then some i else none
  | a :: b :: c :: rest, i, x =>
      if a ≤ x ∧ x < b then some i else histIndexAux (b :: c :: rest) (i + 1) x
  | _, _, _ => none

/-- Bin index of a value for `np.histogram` (edges indexed from 0). -/
def histIndex (edges : List ℚ) (x : ℚ) : Option ℕ :=
  histIndexAux edges 0 x

/-- The counts returned by `np.histogram(xs, edges)[0]`. -/
def histCounts (edges : List ℚ) (xs : List ℚ) : List ℕ :=
  (List.range (edges.length - 1)).map
    (fun i => (xs.filter (fun x => histIndex edges x == some i)).length)

/-- The monotonicity check `np.histogram` performs on an explicit edge
array (`bins must increase monotonically`). -/
def monotoneEdges : List ℚ → Bool
  | a :: b :: rest => decide (a ≤ b) && monotoneEdges (b :: rest)
  | _ => true

/-- First index `i` (starting from `j`) with `edges[i] ≤ x ≤ edges[i+1]`:
the `np.select` scan over the `between` criteria of `cat_clients`. -/
def selectCat : List ℚ → ℕ → ℚ → Option ℕ
  | a :: b :: rest, j, x =>
      if a ≤ x ∧ x ≤ b then some j else selectCat (b :: rest) (j + 1) x
  | _, _, _ => none

/-- The category `np.select(criteria, values, 0)` assigns to a value:
the first interval (inclusive at both ends) containing it, default `0`. -/
def catValue (edges : List ℚ) (x : ℚ) : ℕ :=
  (selectCat edges 0 x).getD 0

/-- `Series.unique()`: distinct values in order of first appearance. -/
def uniqueAux (seen : List ℚ) : List ℚ → List ℚ
  | [] => []
  | x :: xs => if x ∈ seen then uniqueAux seen xs else x :: uniqueAux (x :: seen) xs

/-- `Series.unique()`: distinct values in order of first appearance. -/
def uniqueList (l : List ℚ) : List ℚ :=
  uniqueAux [] l

/-- A plotly trace: either a `go.Bar` or a `go.Scatter`.  The `marker`
field is the colour index chosen by `find_color`. -/
inductive Trace where
  | bar (x : List ℚ) (y : List ℚ) (marker : ℕ) (opacity : ℚ) (name : String)
  | scatter (x : List ℚ) (y : List ℚ) (marker : ℕ) (name : String) (yaxis : String)
deriving DecidableEq

/-- The `y` field of a trace (bar heights, or scatter ordinates). -/
def Trace.yvals : Trace → List ℚ
  | .bar _ y _ _ _ => y
  | .scatter _ y _ _ _ => y

/-- The `name` field of a trace. -/
def Trace.nameOf : Trace → String
  | .bar _ _ _ _ n => n
  | .scatter _ _ _ n _ => n

/-- A one-word summary of the kind of a trace (bars, or scatters tagged
with the y-axis they are attached to). -/
def Trace.kind : Trace → String
  | .bar _ _ _ _ _ => "bar"
  | .scatter _ _ _ _ ax => "scatter:" ++ ax

/-- `create_dist(df, x_var, color, x_bar, interval_perc)`: builds the bin
edges when `x_bar is None` (from `temp = math.ceil(df[x_var].max() / 100)`,
step `interval_perc * temp`, stop `temp * 100 + temp`), then the histogram
bar trace with heights `(count * 100 / len(df)) * 0.01`.  `none` models the
Python exceptions: missing column, empty column (`math.ceil(nan)`),
`np.arange` with non-positive step or empty result, and `np.histogram`
with non-monotonic edges. -/
def create_dist (df : DataFrame) (x_var : String) (color : ℕ)
    (x_bar? : Option (List ℚ)) (interval_perc : ℚ) : Option (Trace × List ℚ) :=
  if df.hasCol x_var then
    let xs := df.rows.map (fun r => r x_var)
    let edges? : Option (List ℚ) :=
      match x_bar? with
      | some b => some b
      | none =>
        match maxQ xs with
        | none => none
        | some m =>
          let temp : ℤ := ⌈m / 100⌉
          let interval : ℚ := interval_perc * (temp : ℚ)
          if 0 < interval ∧ (0 : ℚ) < (temp : ℚ) * 100 + (temp : ℚ) then
            some (arangeQ 0 ((temp : ℚ) * 100 + (temp : ℚ)) interval)
          else none
    match edges? with
    | none => none
    | some x_bar =>
      if monotoneEdges x_bar then
        let count := histCounts x_bar xs
        let y_bar := count.map (fun cnt : ℕ => ((cnt : ℚ) * 100 / (df.rows.length : ℚ)) * (1 / 100))
        some (Trace.bar x_bar y_bar color (3 / 10) ("Dist. " ++ x_var), x_bar)
      else none
  else none

/-- `cat_clients(df, x_var, x_bar)`: writes the `np.select` category of
each row's `x_var` value into a `cat` column (overwriting an existing
`cat` column, otherwise appending it).  `none` models the `KeyError` on a
missing `x_var` column and the `np.select` error on an empty criteria
list (fewer than two bin edges). -/
def cat_clients (df : DataFrame) (x_var : String) (x_bar : List ℚ) : Option DataFrame :=
  if df.hasCol x_var ∧ 2 ≤ x_bar.length then
    some { cols := if df.hasCol "cat" then df.cols else df.cols ++ ["cat"],
           rows := df.rows.map
             (fun r => fun c => if c = "cat" then (catValue x_bar (r x_var) : ℚ) else r c) }
  else none

/-- Sorted copy of a list of rationals, ascending (`pandas` group keys
are returned in sorted order). -/
def sortQ (l : List ℚ) : List ℚ :=
  List.insertionSort (· ≤ ·) l

/-- `df.sort_values(by=['pr_total'])`: the rows reordered by their
`pr_total` value. -/
def sortRows (rows : List Row) : List Row :=
  List.insertionSort (fun r s => r "pr_total" ≤ s "pr_total") rows

/-- Arithmetic mean of a list of rationals (`Series.mean`). -/
def meanQ (l : List ℚ) : ℚ :=
  l.sum / (l.length : ℚ)

/-- `df.groupby([key])[val].mean()`: for each distinct key value (in
ascending order), the mean of `val` over the rows with that key. -/
def groupbyMean (df : DataFrame) (key val : String) : List (ℚ × ℚ) :=
  (sortQ (uniqueList (df.rows.map (fun r => r key)))).map
    (fun k => (k, meanQ ((df.rows.filter (fun r => r key == k)).map (fun r => r val))))

/-- `avg_cats(df, x_var, y_var)`: sorts the rows by `pr_total` (raising
if that column is absent), then returns the per-`cat` means of `x_var`
and of `y_var`. -/
def avg_cats (df : DataFrame) (x_var y_var : String) : Option (List (ℚ × ℚ) × List (ℚ × ℚ)) :=
  if df.hasCol "pr_total" then
    let sorted : DataFrame := ⟨df.cols, sortRows df.rows⟩
    if sorted.hasCol "cat" ∧ sorted.hasCol x_var ∧ sorted.hasCol y_var then
      some (groupbyMean sorted "cat" x_var, groupbyMean sorted "cat" y_var)
    else none
  else none

/-- `create_scatter(x, y, var_name, color, axis_num)`: a lines+markers
scatter of the series values, attached to axis `'y{axis_num}'`. -/
def create_scatter (x y : List (ℚ × ℚ)) (var_name : String) (color : ℕ) (axis_num : ℕ) : Trace :=
  Trace.scatter (x.map Prod.snd) (y.map Prod.snd) color var_name ("y" ++ toString axis_num)

/-- The retry loop of `find_color`: draw `rand pos`, redraw while the
draw is already in `used`.  Returns the chosen index and the next stream
position; `none` when the fuel is exhausted before a fresh draw. -/
def find_color_go (rand : ℕ → ℕ) (used : List ℕ) : ℕ → ℕ → Option (ℕ × ℕ)
  | 0, _ => none
  | fuel + 1, pos =>
      if rand pos ∈ used then find_color_go rand used fuel (pos + 1)
      else some (rand pos, pos + 1)

/-- `find_color(color_used)`: repeatedly draws `np.random.randint(0, 8)`
until the draw is not in `color_used`, then appends the chosen index to
`color_used`.  The draws are `rand pos, rand (pos+1), …`. -/
def find_color (rand : ℕ → ℕ) (pos fuel : ℕ) (color_used : List ℕ) :
    Option (ℕ × List ℕ × ℕ) :=
  match find_color_go rand color_used fuel pos with
  | none => none
  | some (c, pos') => some (c, color_used ++ [c], pos')

/-- The loop body of `create_cat_plots`: for each distinct value `v` of
the categorical column (in order of first appearance) a scatter of the
per-`cat` means of the `v`-rows and a histogram bar of the `v`-rows,
normalised by the length of the whole dataframe.  The np.histogram
monotonicity check and the colour draw happen inside the loop, in the
source's order. -/
def cat_plots_loop (df : DataFrame) (categorical_var x_var y_var : String)
    (x_bar : List ℚ) (rand : ℕ → ℕ) (fuel : ℕ) :
    List ℚ → List ℕ → ℕ → Option (List Trace × List ℕ × ℕ)
  | [], used, pos => some ([], used, pos)
  | v :: vs, used, pos =>
    if monotoneEdges x_bar then
      let sub := df.rows.filter (fun r => r categorical_var == v)
      let temp_x := groupbyMean ⟨df.cols, sub⟩ "cat" x_var
      let temp_y := groupbyMean ⟨df.cols, sub⟩ "cat" y_var
      let count := histCounts x_bar (sub.map (fun r => r x_var))
      let y_bar := count.map (fun cnt : ℕ => ((cnt : ℚ) * 100 / (df.rows.length : ℚ)) * (1 / 100))
      match find_color rand pos fuel used with
      | none => none
      | some (color, used', pos') =>
        match cat_plots_loop df categorical_var x_var y_var x_bar rand fuel vs used' pos' with
        | none => none
        | some (ts, usedF, posF) =>
          some (create_scatter temp_x temp_y (toString v) color 1 ::
                  Trace.bar x_bar y_bar color (3 / 10) (toString v) :: ts,
                usedF, posF)
    else none

/-- `create_cat_plots(df, categorical_var, x_var, y_var, x_bar,
color_used)`: one scatter and one bar per distinct value of the
categorical column.  `none` models the `KeyError` of the initial
two-level groupby on a missing column. -/
def create_cat_plots (df : DataFrame) (categorical_var x_var y_var : String)
    (x_bar : List ℚ) (color_used : List ℕ) (rand : ℕ → ℕ) (fuel pos : ℕ) :
    Option (List Trace × List ℕ × ℕ) :=
  if df.hasCol categorical_var ∧ df.hasCol "cat" ∧ df.hasCol x_var ∧ df.hasCol y_var then
    cat_plots_loop df categorical_var x_var y_var x_bar rand fuel
      (uniqueList (df.rows.map (fun r => r categorical_var))) color_used pos
  else none

/-- The layout dictionary assembled by `create_figure` (the `yaxis2`
entry stores the secondary axis title; `overlaying='y1'`, `side='right'`
are constants). -/
structure Layout where
  title : String
  xaxis_title : String
  yaxis_title : String
  barmode : Option String
  yaxis2 : Option String
deriving DecidableEq

/-- The argument of `plotly.offline.plot`: the data list, the layout and
the output filename. -/
structure Figure where
  data : List Trace
  layout : Layout
  filename : String

/-- The hard-coded output path of `create_figure`. -/
def fixedPath (title : String) : String :=
  "C:\\Users\\a-garde\\PycharmProjects\\Plotly-Graph\\output_file\\" ++ title ++ ".html"

/-- The `second_y_var` branch of `create_figure`: when present, the
per-`cat` means of the secondary variable, a fresh colour, a scatter on
axis `y2` and a distribution bar of the secondary variable over the
already-computed `x_bar` (in the source's evaluation order). -/
def secondPart (df2 : DataFrame) (x_var : String) (second_y_var : Option String)
    (x_bar : List ℚ) (rand : ℕ → ℕ) (fuel : ℕ) (used : List ℕ) (pos : ℕ) :
    Option (List Trace × Option String × List ℕ × ℕ) :=
  match second_y_var with
  | none => some ([], none, used, pos)
  | some s =>
    match avg_cats df2 x_var s with
    | none => none
    | some (x2, y2) =>
      match find_color rand pos fuel used with
      | none => none
      | some (color2, used', pos') =>
        match create_dist df2 s color2 (some x_bar) (1 / 10) with
        | none => none
        | some (trace_bar2, _) =>
          some ([create_scatter x2 y2 s color2 2, trace_bar2], some s, used', pos')

/-- The `categorical_var` branch of `create_figure`. -/
def catPart (df2 : DataFrame) (categorical_var : Option String) (x_var y_var : String)
    (x_bar : List ℚ) (rand : ℕ → ℕ) (fuel : ℕ) (used : List ℕ) (pos : ℕ) :
    Option (List Trace) :=
  match categorical_var with
  | none => some []
  | some cv =>
    match create_cat_plots df2 cv x_var y_var x_bar used rand fuel pos with
    | none => none
    | some (ts, _, _) => some ts

/-- `create_figure(df, x_var, y_var, x_title, y_title, title,
second_y_var, categorical_var, stack_bar)`: colour draw, distribution
bars with freshly constructed edges (`interval_perc` keeps its default
`0.1`), categorisation, per-`cat` means, base scatter, then the optional
secondary-axis and categorical traces, assembled into the plotly call
whose filename is the hard-coded path. -/
def create_figure (df : DataFrame) (x_var y_var x_title y_title title : String)
    (second_y_var categorical_var : Option String) (stack_bar : Bool)
    (rand : ℕ → ℕ) (fuel : ℕ) : Option Figure :=
  match find_color rand 0 fuel [] with
  | none => none
  | some (color, used1, pos1) =>
    match create_dist df x_var color none (1 / 10) with
    | none => none
    | some (trace_bar, x_bar) =>
      match cat_clients df x_var x_bar with
      | none => none
      | some df2 =>
        match avg_cats df2 x_var y_var with
        | none => none
        | some (xm, ym) =>
          let trace_scatter := create_scatter xm ym x_var color 1
          let bm : Option String := if stack_bar then some "stack" else none
          match secondPart df2 x_var second_y_var x_bar rand fuel used1 pos1 with
          | none => none
          | some (extra, y2title, used2, pos2) =>
            match catPart df2 categorical_var x_var y_var x_bar rand fuel used2 pos2 with
            | none => none
            | some cats =>
              some { data := [trace_bar, trace_scatter] ++ extra ++ cats,
                     layout := { title := title, xaxis_title := x_title,
                                 yaxis_title := y_title, barmode := bm,
                                 yaxis2 := y2title },
                     filename := fixedPath title }

/-- `optAll p o`: every value of the optional `o` satisfies `p`. -/
def optAll {α : Type _} (p : α → Prop) : Option α → Prop
  | none => True
  | some a => p a

/-- Strict version of the edge monotonicity check (the freshly
constructed `np.arange` edges are strictly increasing). -/
def strictEdges : List ℚ → Bool
  | a :: b :: rest => decide (a < b) && strictEdges (b :: rest)
  | _ => true

/-- The step `interval = interval_perc * math.ceil(max / 100)` used by
`create_dist` when it constructs the bin edges. -/
def distStep (p m : ℚ) : ℚ :=
  p * ((⌈m / 100⌉ : ℤ) : ℚ)

/-- The `np.arange` stop `math.ceil(max / 100) * 100 + temp` used by
`create_dist` when it constructs the bin edges. -/
def distStop (m : ℚ) : ℚ :=
  ((⌈m / 100⌉ : ℤ) : ℚ) * 100 + ((⌈m / 100⌉ : ℤ) : ℚ)

/-! ### Concrete dataframes used to instantiate the theorems -/

/-- One row, `x = 50`, `y = 2`, `pr_total = 1`. -/
def rowEx : Row := fun c =>
  if c = "x" then 50 else if c = "y" then 2 else if c = "pr_total" then 1 else 0

/-- A dataframe on which `create_figure` succeeds. -/
def dfEx : DataFrame := ⟨["x", "y", "pr_total"], [rowEx]⟩

/-- Two rows, `x = 50` and `x = -5`: a positive maximum together with a
negative value. -/
def dfNeg : DataFrame :=
  ⟨["x"], [fun c => if c = "x" then 50 else 0, fun c => if c = "x" then -5 else 0]⟩

/-- One row with `x = 50`. -/
def df50 : DataFrame := ⟨["x"], [fun c => if c = "x" then 50 else 0]⟩

/-- One row with `x = 1`: the value sits exactly on the interior bin edge
of `[0, 1, 2]`. -/
def dfEdge : DataFrame := ⟨["x"], [fun _ => 1]⟩

/-- One row with `x = 1/2`. -/
def dfHalf : DataFrame := ⟨["x"], [fun c => if c = "x" then 1/2 else 7]⟩

/-- One row with `x = 1/2` and a pre-existing `cat` column holding `5`. -/
def dfPreCat : DataFrame := ⟨["x", "cat"], [fun c => if c = "x" then 1/2 else 5]⟩

/-- `cat`, `x` and `y` columns but no `pr_total` column. -/
def dfNoPr : DataFrame :=
  ⟨["cat", "x", "y"], [fun c => if c = "x" then 2 else if c = "y" then 3 else 0]⟩

/-- All the columns `avg_cats` touches: `cat`, `pr_total`, `x`, `y`. -/
def dfFull : DataFrame :=
  ⟨["x", "y", "pr_total", "cat"],
   [fun c => if c = "x" then 2 else if c = "y" then 3 else if c = "pr_total" then 1 else 0]⟩

/-- One row with categorical column `g = 7`, `cat = 0`, `x = 1`, `y = 2`. -/
def dfCat : DataFrame :=
  ⟨["g", "cat", "x", "y"],
   [fun c => if c = "g" then 7 else if c = "x" then 1 else if c = "y" then 2 else 0]⟩

/-! ### Helper lemmas -/

theorem find_color_go_isSome (rand : ℕ → ℕ) (used : List ℕ) :
    ∀ (fuel j pos : ℕ), j < fuel → rand (pos + j) ∉ used →
      (find_color_go rand used fuel pos).isSome = true := by
  intro fuel
  induction fuel with
  | zero => intro j pos hj _; omega
  | succ f ih =>
    intro j pos hj hfresh
    by_cases hmem : rand pos ∈ used
    · cases j with
      | zero => simp only [Nat.add_zero] at hfresh; exact absurd hmem hfresh
      | succ j' =>
        have : rand (pos + 1 + j') ∉ used := by
          have : pos + 1 + j' = pos + (j' + 1) := by omega
          rw [this]; exact hfresh
        simp only [find_color_go, hmem, if_pos]
        exact ih j' (pos + 1) (by omega) this
    · simp [find_color_go, hmem]

theorem find_color_go_some (rand : ℕ → ℕ) (used : List ℕ) :
    ∀ (fuel pos c pos' : ℕ), find_color_go rand used fuel pos = some (c, pos') →
      c ∉ used ∧ ∃ k, rand k = c := by
  intro fuel
  induction fuel with
  | zero => intro pos c pos' h; simp [find_color_go] at h
  | succ f ih =>
    intro pos c pos' h
    by_cases hmem : rand pos ∈ used
    · simp only [find_color_go, hmem, if_pos] at h
      exact ih (pos + 1) c pos' h
    · simp only [find_color_go, hmem, if_neg, ite_false, Option.some.injEq,
        Prod.mk.injEq] at h
      obtain ⟨hc, -⟩ := h
      exact ⟨hc ▸ hmem, ⟨pos, hc⟩⟩

theorem find_color_go_none (rand : ℕ → ℕ) (used : List ℕ)
    (hall : ∀ k, rand k ∈ used) :
    ∀ (fuel pos : ℕ), find_color_go rand used fuel pos = none := by
  intro fuel
  induction fuel with
  | zero => intro pos; rfl
  | succ f ih => intro pos; simp only [find_color_go, hall pos, if_pos]; exact ih (pos + 1)

/-- C9: with fewer than 8 colours used and a random stream that eventually
draws a colour index outside `color_used` (which holds with probability one
for `np.random.randint(0, 8)`), `find_color` terminates, returns an unused
index below 8 and appends exactly that index to `color_used`; once all 8
indices are used, no amount of fuel makes the retry loop terminate. -/
theorem find_color_spec :
    (∀ (rand : ℕ → ℕ) (used : List ℕ) (pos j fuel : ℕ),
        (∀ k, rand k < 8) → rand (pos + j) ∉ used → j < fuel →
        (find_color rand pos fuel used).isSome = true ∧
        ∀ c used' pos', find_color rand pos fuel used = some (c, used', pos') →
          c < 8 ∧ c ∉ used ∧ used' = used ++ [c]) ∧
    (∀ (rand : ℕ → ℕ) (used : List ℕ),
        (∀ k, rand k < 8) → (∀ c, c < 8 → c ∈ used) →
        ∀ (pos fuel : ℕ), find_color rand pos fuel used = none) := by
  constructor
  · intro rand used pos j fuel hlt hfresh hj
    constructor
    · have hgo := find_color_go_isSome rand used fuel j pos hj hfresh
      unfold find_color
      cases h : find_color_go rand used fuel pos with
      | none => rw [h] at hgo; simp at hgo
      | some v => simp
    · intro c used' pos' h
      cases hgo : find_color_go rand used fuel pos with
      | none => simp only [find_color, hgo] at h; exact Option.noConfusion h
      | some v =>
        simp only [find_color, hgo, Option.some.injEq, Prod.mk.injEq] at h
        obtain ⟨hv1, hv2, -⟩ := h
        obtain ⟨hcu, k, hk⟩ := find_color_go_some rand used fuel pos v.1 v.2 (by rw [hgo])
        refine ⟨?_, hv1 ▸ hcu, ?_⟩
        · rw [← hv1, ← hk]; exact hlt k
        · rw [← hv2, hv1]
  · intro rand used hlt hall pos fuel
    unfold find_color
    rw [find_color_go_none rand used (fun k => hall (rand k) (hlt k)) fuel pos]

/-- C9 witness: a concrete run that terminates with the fresh colour `1`,
and a concrete saturated `color_used` on which the loop never finishes. -/
theorem find_color_spec_witness :
    ((find_color (fun k => k % 8) 0 2 [0]).isSome = true ∧
     ((1 : ℕ) < 8 ∧ (1 : ℕ) ∉ ([0] : List ℕ) ∧ ([0, 1] : List ℕ) = [0] ++ [1])) ∧
    find_color (fun _ => 3) 0 5 [0, 1, 2, 3, 4, 5, 6, 7] = none := by
  have h1 := find_color_spec.1 (fun k => k % 8) [0] 0 1 2
    (fun k => Nat.mod_lt k (by decide)) (by decide) (by decide)
  exact ⟨⟨h1.1, h1.2 1 [0, 1] 2 (by with_unfolding_all decide)⟩,
    find_color_spec.2 (fun _ => 3) [0, 1, 2, 3, 4, 5, 6, 7]
      (fun _ => by show (3 : ℕ) < 8; decide) (by decide) 0 5⟩

/-- C10 counterexample: on a dataframe that already has a `cat` column,
`cat_clients` overwrites the values of that pre-existing column (5
becomes 0) and adds no column, so the claim as stated fails. -/
theorem cat_clients_overwrites_existing_cat :
    dfPreCat.rows.map (fun r => r "cat") = [5] ∧
    (cat_clients dfPreCat "x" [0, 1]).map (fun d => d.rows.map (fun r => r "cat")) =
      some [0] ∧
    (cat_clients dfPreCat "x" [0, 1]).map DataFrame.cols = some ["x", "cat"] := by
  with_unfolding_all decide

/-- C10 (amended): on a dataframe containing `x_var`, not already
containing `cat`, and with at least two bin edges, `cat_clients` returns
the dataframe with exactly the one added column `cat` (holding the
`np.select` categories of the `x_var` values); the row count and the
values of every pre-existing column are unchanged. -/
theorem cat_clients_frame (df : DataFrame) (x_var : String) (x_bar : List ℚ)
    (hx : df.hasCol x_var = true) (hcat : df.hasCol "cat" = false)
    (hlen : 2 ≤ x_bar.length) :
    (cat_clients df x_var x_bar).map DataFrame.cols = some (df.cols ++ ["cat"]) ∧
    (cat_clients df x_var x_bar).map (fun d => d.rows.length) = some df.rows.length ∧
    (cat_clients df x_var x_bar).map (fun d => d.rows.map (fun r => r "cat")) =
      some (df.rows.map (fun r => (catValue x_bar (r x_var) : ℚ))) ∧
    ∀ c, c ≠ "cat" →
      (cat_clients df x_var x_bar).map (fun d => d.rows.map (fun r => r c)) =
        some (df.rows.map (fun r => r c)) := by
  have hcond : df.hasCol x_var ∧ 2 ≤ x_bar.length := ⟨hx, hlen⟩
  refine ⟨?_, ?_, ?_, ?_⟩
  · simp [cat_clients, hcond, hcat]
  · simp [cat_clients, hcond]
  · simp [cat_clients, hcond]
  · intro c hc
    simp only [cat_clients, hcond, and_self, if_true, Option.map_some', List.map_map,
      Option.some.injEq, if_pos]
    exact List.map_congr_left (fun r _ => by simp [Function.comp, if_neg hc])

/-- C10 witness: a concrete instantiation of `cat_clients_frame` on a
one-row dataframe (`x = 1/2`), with the pre-existing column `x` probed. -/
theorem cat_clients_frame_witness :
    (cat_clients dfHalf "x" [0, 1]).map DataFrame.cols = some (dfHalf.cols ++ ["cat"]) ∧
    (cat_clients dfHalf "x" [0, 1]).map (fun d => d.rows.length) = some dfHalf.rows.length ∧
    (cat_clients dfHalf "x" [0, 1]).map (fun d => d.rows.map (fun r => r "cat")) =
      some (dfHalf.rows.map (fun r => (catValue [0, 1] (r "x") : ℚ))) ∧
    (cat_clients dfHalf "x" [0, 1]).map (fun d => d.rows.map (fun r => r "x")) =
      some (dfHalf.rows.map (fun r => r "x")) := by
  have h := cat_clients_frame dfHalf "x" [0, 1] (by decide) (by decide) (by decide)
  exact ⟨h.1, h.2.1, h.2.2.1, h.2.2.2 "x" (by decide)⟩

theorem strictEdges_cons {a b : ℚ} {r : List ℚ} :
    strictEdges (a :: b :: r) = true ↔ a < b ∧ strictEdges (b :: r) = true := by
  simp [strictEdges]

theorem strictEdges_head_le {v : ℚ} :
    ∀ (k : ℕ) (d : ℚ) (t : List ℚ), strictEdges (d :: t) = true →
      (d :: t).get? k = some v → d ≤ v := by
  intro k
  induction k with
  | zero => intro d t _ hget; simp only [List.get?] at hget; exact le_of_eq (Option.some.inj hget)
  | succ k ih =>
    intro d t hs hget
    cases t with
    | nil => simp [List.get?] at hget
    | cons e t' =>
      obtain ⟨hde, hs'⟩ := strictEdges_cons.mp hs
      exact le_trans (le_of_lt hde) (ih e t' hs' hget)

theorem selectCat_interior {x : ℚ} :
    ∀ (i : ℕ) (l : List ℚ) (j : ℕ) (a b : ℚ), strictEdges l = true →
      l.get? i = some a → l.get? (i + 1) = some b → a < x → x < b →
      selectCat l j x = some (j + i) := by
  intro i
  induction i with
  | zero =>
    intro l j a b hs ha hb hax hxb
    cases l with
    | nil => simp [List.get?] at ha
    | cons c t =>
      cases t with
      | nil => simp [List.get?] at hb
      | cons d t' =>
        simp only [List.get?] at ha hb
        obtain rfl : c = a := Option.some.inj ha
        obtain rfl : d = b := Option.some.inj hb
        simp [selectCat, le_of_lt hax, le_of_lt hxb]
  | succ i ih =>
    intro l j a b hs ha hb hax hxb
    cases l with
    | nil => simp [List.get?] at ha
    | cons c t =>
      cases t with
      | nil => simp [List.get?] at ha
      | cons d t' =>
        simp only [List.get?] at ha hb
        obtain ⟨hcd, hs'⟩ := strictEdges_cons.mp hs
        have hdx : d < x := lt_of_le_of_lt (strictEdges_head_le i d t' hs' ha) hax
        have hcond : ¬(c ≤ x ∧ x ≤ d) := fun hc => absurd hc.2 (not_le.mpr hdx)
        simp only [selectCat, hcond, if_neg, ite_false]
        have := ih (d :: t') (j + 1) a b hs' ha hb hax hxb
        rw [this]
        congr 1
        omega

theorem histIndexAux_interior {x : ℚ} :
    ∀ (i : ℕ) (l : List ℚ) (j : ℕ) (a b : ℚ), strictEdges l = true →
      l.get? i = some a → l.get? (i + 1) = some b → a < x → x < b →
      histIndexAux l j x = some (j + i) := by
  intro i
  induction i with
  | zero =>
    intro l j a b hs ha hb hax hxb
    cases l with
    | nil => simp [List.get?] at ha
    | cons c t =>
      cases t with
      | nil => simp [List.get?] at hb
      | cons d t' =>
        simp only [List.get?] at ha hb
        obtain rfl : c = a := Option.some.inj ha
        obtain rfl : d = b := Option.some.inj hb
        cases t' with
        | nil => simp [histIndexAux, le_of_lt hax, le_of_lt hxb]
        | cons e t'' => simp [histIndexAux, le_of_lt hax, hxb]
  | succ i ih =>
    intro l j a b hs ha hb hax hxb
    cases l with
    | nil => simp [List.get?] at ha
    | cons c t =>
      cases t with
      | nil => simp [List.get?] at ha
      | cons d t' =>
        simp only [List.get?] at ha hb
        obtain ⟨hcd, hs'⟩ := strictEdges_cons.mp hs
        have hdx : d < x := lt_of_le_of_lt (strictEdges_head_le i d t' hs' ha) hax
        cases t' with
        | nil => simp [List.get?] at hb
        | cons e t'' =>
          have hcond : ¬(c ≤ x ∧ x < d) := fun hc => absurd hc.2 (not_lt.mpr (le_of_lt hdx))
          simp only [histIndexAux, hcond, if_neg, ite_false]
          have := ih (d :: e :: t'') (j + 1) a b hs' ha hb hax hxb
          rw [this]
          congr 1
          omega

/-- C3 counterexample: with edges `[0, 1, 2]` the row value `1` (an
interior bin edge) is counted by `np.histogram` in bin 1, while
`cat_clients` writes category 0 into the `cat` column, so the histogram
bin and the `cat` category disagree. -/
theorem hist_cat_disagree_at_edge :
    histCounts [0, 1, 2] (dfEdge.rows.map (fun r => r "x")) = [0, 1] ∧
    histIndex [0, 1, 2] 1 = some 1 ∧
    (cat_clients dfEdge "x" [0, 1, 2]).map (fun d => d.rows.map (fun r => r "cat")) =
      some [0] := by
  with_unfolding_all decide

/-- C3 (amended): `cat_clients` writes exactly the `np.select` category
`catValue` of each row into the `cat` column, and for any value lying
strictly inside one of the intervals of a strictly increasing edge array
the histogram bin index and the `cat` category agree; the disagreement is
confined to values equal to an interior bin edge (histogram: right
interval, category: left interval) and values outside the edge range
(histogram: not counted, category: 0). -/
theorem cat_hist_interior_agree :
    (∀ (df : DataFrame) (x_var : String) (x_bar : List ℚ),
        df.hasCol x_var = true → 2 ≤ x_bar.length →
        (cat_clients df x_var x_bar).map (fun d => d.rows.map (fun r => r "cat")) =
          some (df.rows.map (fun r => (catValue x_bar (r x_var) : ℚ)))) ∧
    (∀ (x_bar : List ℚ) (i : ℕ) (a b x : ℚ),
        strictEdges x_bar = true →
        x_bar.get? i = some a → x_bar.get? (i + 1) = some b →
        a < x → x < b →
        histIndex x_bar x = some i ∧ catValue x_bar x = i) := by
  constructor
  · intro df x_var x_bar hx hlen
    simp [cat_clients, hx, hlen]
  · intro x_bar i a b x hs ha hb hax hxb
    constructor
    · have := histIndexAux_interior i x_bar 0 a b hs ha hb hax hxb
      rw [histIndex, this, Nat.zero_add]
    · have := selectCat_interior i x_bar 0 a b hs ha hb hax hxb
      rw [catValue, this, Nat.zero_add]
      rfl

/-- C3 witness: a concrete instantiation of both parts of
`cat_hist_interior_agree` (edges `[0, 1, 2]`, interior value `1/2`). -/
theorem cat_hist_interior_agree_witness :
    ((cat_clients dfHalf "x" [0, 1, 2]).map (fun d => d.rows.map (fun r => r "cat")) =
      some (dfHalf.rows.map (fun r => (catValue [0, 1, 2] (r "x") : ℚ)))) ∧
    (histIndex [0, 1, 2] (1/2) = some 0 ∧ catValue [0, 1, 2] (1/2) = 0) := by
  refine ⟨cat_hist_interior_agree.1 dfHalf "x" [0, 1, 2] (by decide) (by decide), ?_⟩
  exact cat_hist_interior_agree.2 [0, 1, 2] 0 0 1 (1/2) (by with_unfolding_all decide)
    rfl rfl (by with_unfolding_all decide) (by with_unfolding_all decide)

theorem mem_uniqueAux {x : ℚ} :
    ∀ (l seen : List ℚ), x ∈ uniqueAux seen l ↔ x ∈ l ∧ x ∉ seen := by
  intro l
  induction l with
  | nil => intro seen; simp [uniqueAux]
  | cons y ys ih =>
    intro seen
    by_cases hy : y ∈ seen
    · simp only [uniqueAux, hy, if_pos, ih, List.mem_cons]
      constructor
      · rintro ⟨h1, h2⟩; exact ⟨Or.inr h1, h2⟩
      · rintro ⟨h1 | h1, h2⟩
        · exact absurd (h1 ▸ hy) h2
        · exact ⟨h1, h2⟩
    · simp only [uniqueAux, hy, if_neg, ite_false, List.mem_cons, ih]
      constructor
      · rintro (rfl | ⟨h1, h2⟩)
        · exact ⟨Or.inl rfl, hy⟩
        · simp only [List.mem_cons, not_or] at h2
          exact ⟨Or.inr h1, h2.2⟩
      · rintro ⟨rfl | h1, h2⟩
        · exact Or.inl rfl
        · by_cases hxy : x = y
          · exact Or.inl hxy
          · exact Or.inr ⟨h1, by simp [List.mem_cons, hxy, h2]⟩

theorem nodup_uniqueAux : ∀ (l seen : List ℚ), (uniqueAux seen l).Nodup := by
  intro l
  induction l with
  | nil => intro seen; simp [uniqueAux]
  | cons y ys ih =>
    intro seen
    by_cases hy : y ∈ seen
    · simpa only [uniqueAux, hy, if_pos] using ih seen
    · simp only [uniqueAux, hy, if_neg, ite_false, List.nodup_cons]
      refine ⟨fun hmem => ?_, ih (y :: seen)⟩
      exact absurd (List.mem_cons_self y seen) (mem_uniqueAux ys (y :: seen) |>.mp hmem).2

theorem mem_uniqueList {x : ℚ} {l : List ℚ} : x ∈ uniqueList l ↔ x ∈ l := by
  simp [uniqueList, mem_uniqueAux]

theorem uniqueList_perm_of_perm {l l' : List ℚ} (h : l.Perm l') :
    (uniqueList l).Perm (uniqueList l') := by
  refine (List.perm_ext_iff_of_nodup (nodup_uniqueAux l []) (nodup_uniqueAux l' [])).mpr ?_
  intro a
  simp only [mem_uniqueAux, List.not_mem_nil, not_false_iff, and_true]
  exact h.mem_iff

theorem sortQ_eq_of_perm {l l' : List ℚ} (h : l.Perm l') : sortQ l = sortQ l' := by
  refine List.eq_of_perm_of_sorted ?_ (List.sorted_insertionSort _ l) (List.sorted_insertionSort _ l')
  exact (List.perm_insertionSort _ l).trans (h.trans (List.perm_insertionSort _ l').symm)

theorem meanQ_eq_of_perm {l l' : List ℚ} (h : l.Perm l') : meanQ l = meanQ l' := by
  rw [meanQ, meanQ, h.sum_eq, h.length_eq]

theorem groupbyMean_perm (cols cols' : List String) {rows rows' : List Row}
    (h : rows.Perm rows') (key val : String) :
    groupbyMean ⟨cols, rows⟩ key val = groupbyMean ⟨cols', rows'⟩ key val := by
  have hkeys : sortQ (uniqueList (rows.map (fun r => r key))) =
      sortQ (uniqueList (rows'.map (fun r => r key))) :=
    sortQ_eq_of_perm (uniqueList_perm_of_perm (h.map _))
  simp only [groupbyMean]
  rw [hkeys]
  refine List.map_congr_left (fun k _ => ?_)
  have : (rows.filter (fun r => r key == k)).Perm (rows'.filter (fun r => r key == k)) :=
    h.filter _
  rw [meanQ_eq_of_perm (this.map _)]

theorem sortRows_perm (rows : List Row) : (sortRows rows).Perm rows :=
  List.perm_insertionSort _ rows

theorem avg_cats_eq_groupbyMean (df : DataFrame) (x_var y_var : String)
    (hp : df.hasCol "pr_total" = true) (hc : df.hasCol "cat" = true)
    (hx : df.hasCol x_var = true) (hy : df.hasCol y_var = true) :
    avg_cats df x_var y_var =
      some (groupbyMean df "cat" x_var, groupbyMean df "cat" y_var) := by
  have hsorted : DataFrame.hasCol ⟨df.cols, sortRows df.rows⟩ = df.hasCol := rfl
  simp only [avg_cats, hp, if_pos, hsorted, hc, hx, hy, and_self, if_true]
  have h1 := groupbyMean_perm df.cols df.cols
    (sortRows_perm df.rows) "cat" x_var
  have h2 := groupbyMean_perm df.cols df.cols
    (sortRows_perm df.rows) "cat" y_var
  rw [h1, h2]

/-- C8: `avg_cats` requires a `pr_total` column even though that column
is neither plotted nor returned: without it the sort raises (modelled as
`none`); with it, the sort is a permutation of the rows and therefore
leaves the per-`cat` means unchanged (the result equals the group means
of the unsorted dataframe). -/
theorem avg_cats_requires_pr_total :
    (∀ (df : DataFrame) (x_var y_var : String),
        df.hasCol "pr_total" = false → avg_cats df x_var y_var = none) ∧
    (∀ (df : DataFrame) (x_var y_var : String),
        df.hasCol "pr_total" = true → df.hasCol "cat" = true →
        df.hasCol x_var = true → df.hasCol y_var = true →
        avg_cats df x_var y_var =
          some (groupbyMean df "cat" x_var, groupbyMean df "cat" y_var)) := by
  constructor
  · intro df x_var y_var hp
    simp [avg_cats, hp]
  · intro df x_var y_var hp hc hx hy
    exact avg_cats_eq_groupbyMean df x_var y_var hp hc hx hy

/-- C8 witness: concrete instantiations of both parts of
`avg_cats_requires_pr_total`. -/
theorem avg_cats_requires_pr_total_witness :
    avg_cats dfNoPr "y" "x" = none ∧
    avg_cats dfFull "x" "y" =
      some (groupbyMean dfFull "cat" "x", groupbyMean dfFull "cat" "y") := by
  exact ⟨avg_cats_requires_pr_total.1 dfNoPr "y" "x" (by decide),
    avg_cats_requires_pr_total.2 dfFull "x" "y" (by decide) (by decide) (by decide) (by decide)⟩

/-- C1 counterexample: a dataframe with `cat`, `x` and `y` columns but no
`pr_total` column makes `avg_cats` raise (modelled as `none`) instead of
returning the per-category means, so the claim as stated fails. -/
theorem avg_cats_missing_pr_total_fails : avg_cats dfNoPr "x" "y" = none := by
  with_unfolding_all decide

/-- C1 (amended): on a dataframe that contains `cat`, the plotted columns
and additionally `pr_total`, `avg_cats` returns two series holding, for
each distinct value `c` of `cat` (in ascending order), the arithmetic
mean of `x_var` (resp. `y_var`) over the rows with `cat == c`. -/
theorem avg_cats_per_category_means (df : DataFrame) (x_var y_var : String)
    (hp : df.hasCol "pr_total" = true) (hc : df.hasCol "cat" = true)
    (hx : df.hasCol x_var = true) (hy : df.hasCol y_var = true) :
    ∀ xs ys, avg_cats df x_var y_var = some (xs, ys) →
      xs = (sortQ (uniqueList (df.rows.map (fun r => r "cat")))).map
          (fun c => (c, meanQ ((df.rows.filter (fun r => r "cat" == c)).map
            (fun r => r x_var)))) ∧
      ys = (sortQ (uniqueList (df.rows.map (fun r => r "cat")))).map
          (fun c => (c, meanQ ((df.rows.filter (fun r => r "cat" == c)).map
            (fun r => r y_var)))) := by
  intro xs ys h
  rw [avg_cats_eq_groupbyMean df x_var y_var hp hc hx hy] at h
  simp only [Option.some.injEq, Prod.mk.injEq] at h
  exact ⟨h.1.symm, h.2.symm⟩

/-- C1 witness: on the concrete one-row dataframe `dfFull` the series are
`[(0, 2)]` and `[(0, 3)]`, the per-category means of `x` and `y`. -/
theorem avg_cats_per_category_means_witness :
    ([((0 : ℚ), (2 : ℚ))] = (sortQ (uniqueList (dfFull.rows.map (fun r => r "cat")))).map
        (fun c => (c, meanQ ((dfFull.rows.filter (fun r => r "cat" == c)).map
          (fun r => r "x"))))) ∧
    ([((0 : ℚ), (3 : ℚ))] = (sortQ (uniqueList (dfFull.rows.map (fun r => r "cat")))).map
        (fun c => (c, meanQ ((dfFull.rows.filter (fun r => r "cat" == c)).map
          (fun r => r "y"))))) := by
  exact avg_cats_per_category_means dfFull "x" "y" (by decide) (by decide) (by decide)
    (by decide) [(0, 2)] [(0, 3)] (by with_unfolding_all decide)

theorem yNorm_eq (len cnt : ℚ) : cnt * 100 / len * (1 / 100) = cnt / len := by
  rw [div_mul_eq_mul_div]
  congr 1
  ring

theorem cat_plots_loop_spec (df : DataFrame) (cv xv yv : String) (x_bar : List ℚ)
    (rand : ℕ → ℕ) (fuel : ℕ) :
    ∀ (vs : List ℚ) (used : List ℕ) (pos : ℕ) (ts : List Trace) (used2 : List ℕ) (pos2 : ℕ),
      cat_plots_loop df cv xv yv x_bar rand fuel vs used pos = some (ts, used2, pos2) →
      ts.length = 2 * vs.length ∧
      ∀ i v, vs.get? i = some v →
        (ts.get? (2 * i)).map Trace.kind = some "scatter:y1" ∧
        (ts.get? (2 * i)).map Trace.nameOf = some (toString v) ∧
        (ts.get? (2 * i + 1)).map Trace.kind = some "bar" ∧
        (ts.get? (2 * i + 1)).map Trace.nameOf = some (toString v) ∧
        (ts.get? (2 * i + 1)).map Trace.yvals =
          some ((histCounts x_bar ((df.rows.filter (fun r => r cv == v)).map
              (fun r => r xv))).map
            (fun cnt : ℕ => ((cnt : ℚ) * 100 / (df.rows.length : ℚ)) * (1 / 100))) := by
  intro vs
  induction vs with
  | nil =>
    intro used pos ts used2 pos2 h
    simp only [cat_plots_loop, Option.some.injEq, Prod.mk.injEq] at h
    obtain ⟨h1, -, -⟩ := h
    refine ⟨by rw [← h1]; rfl, ?_⟩
    intro i v hiv
    simp [List.get?] at hiv
  | cons v vs ih =>
    intro used pos ts used2 pos2 h
    rw [cat_plots_loop] at h
    cases hm : monotoneEdges x_bar with
    | false => rw [hm] at h; simp at h
    | true =>
      rw [hm] at h
      simp only [if_true] at h
      cases hfc : find_color rand pos fuel used with
      | none => rw [hfc] at h; simp at h
      | some w =>
        rw [hfc] at h
        obtain ⟨color, used1, pos1⟩ := w
        simp only at h
        cases hrec : cat_plots_loop df cv xv yv x_bar rand fuel vs used1 pos1 with
        | none => rw [hrec] at h; simp at h
        | some w2 =>
          rw [hrec] at h
          obtain ⟨ts0, u0, p0⟩ := w2
          simp only [Option.some.injEq, Prod.mk.injEq] at h
          obtain ⟨hts, -, -⟩ := h
          obtain ⟨ihlen, ihget⟩ := ih used1 pos1 ts0 u0 p0 hrec
          refine ⟨?_, ?_⟩
          · rw [← hts]
            simp only [List.length_cons, ihlen]
            omega
          · intro i v' hiv
            cases i with
            | zero =>
              simp only [List.get?] at hiv
              obtain rfl : v = v' := Option.some.inj hiv
              rw [← hts]
              refine ⟨?_, ?_, ?_, ?_, ?_⟩ <;>
                simp [create_scatter, Trace.kind, Trace.nameOf, Trace.yvals, List.get?] <;>
                decide
            | succ i' =>
              simp only [List.get?] at hiv
              have h2i : 2 * (i' + 1) = 2 * i' + 1 + 1 := by omega
              rw [← hts, h2i]
              simpa only [List.get?] using ihget i' v' hiv

/-- C5 counterexample: on a one-row dataframe with a single distinct
categorical value, `create_cat_plots` returns a list of two traces (a
scatter and a bar), not one trace per distinct value. -/
theorem create_cat_plots_not_one_trace :
    (create_cat_plots dfCat "g" "x" "y" [0, 1] [] (fun _ => 0) 1 0).map
        (fun out => out.1.length) = some 2 ∧
    (uniqueList (dfCat.rows.map (fun r => r "g"))).length = 1 ∧ (2 : ℕ) ≠ 1 := by
  refine ⟨?_, ?_, by decide⟩ <;> with_unfolding_all decide

/-- C5 (amended): `create_cat_plots` renders exactly two traces for each
distinct value of the categorical column, in order of first appearance:
a scatter of the per-`cat` means (named after the value, on axis `y1`)
followed by a histogram bar (named after the value). -/
theorem create_cat_plots_two_traces_per_value (df : DataFrame) (cv xv yv : String)
    (x_bar : List ℚ) (used : List ℕ) (rand : ℕ → ℕ) (fuel pos : ℕ) :
    ∀ ts used2 pos2,
      create_cat_plots df cv xv yv x_bar used rand fuel pos = some (ts, used2, pos2) →
      ts.length = 2 * (uniqueList (df.rows.map (fun r => r cv))).length ∧
      ∀ i v, (uniqueList (df.rows.map (fun r => r cv))).get? i = some v →
        (ts.get? (2 * i)).map Trace.kind = some "scatter:y1" ∧
        (ts.get? (2 * i)).map Trace.nameOf = some (toString v) ∧
        (ts.get? (2 * i + 1)).map Trace.kind = some "bar" ∧
        (ts.get? (2 * i + 1)).map Trace.nameOf = some (toString v) := by
  intro ts used2 pos2 h
  rw [create_cat_plots] at h
  by_cases hcols : df.hasCol cv ∧ df.hasCol "cat" ∧ df.hasCol xv ∧ df.hasCol yv
  · rw [if_pos hcols] at h
    obtain ⟨hlen, hget⟩ := cat_plots_loop_spec df cv xv yv x_bar rand fuel
      (uniqueList (df.rows.map (fun r => r cv))) used pos ts used2 pos2 h
    refine ⟨hlen, fun i v hiv => ?_⟩
    obtain ⟨h1, h2, h3, h4, -⟩ := hget i v hiv
    exact ⟨h1, h2, h3, h4⟩
  · rw [if_neg hcols] at h
    exact absurd h (by simp)

/-- C5 witness: a concrete instantiation on `dfCat` (single categorical
value `7`): the trace list has length two and holds the scatter and the
bar named `"7"`. -/
theorem create_cat_plots_two_traces_witness :
    ((create_cat_plots dfCat "g" "x" "y" [0, 1] [] (fun _ => 0) 2 0 =
        some ([Trace.scatter [1] [2] 0 "7" "y1", Trace.bar [0, 1] [1] 0 (3/10) "7"],
          [0], 1))) ∧
    ([Trace.scatter [1] [2] 0 "7" "y1", Trace.bar [0, 1] [1] 0 (3/10) "7"].length =
      2 * (uniqueList (dfCat.rows.map (fun r => r "g"))).length) ∧
    (([Trace.scatter [1] [2] 0 "7" "y1",
        Trace.bar [0, 1] [1] 0 (3/10) "7"].get? 0).map Trace.kind = some "scatter:y1") ∧
    (([Trace.scatter [1] [2] 0 "7" "y1",
        Trace.bar [0, 1] [1] 0 (3/10) "7"].get? 1).map Trace.nameOf = some "7") := by
  have hrun : create_cat_plots dfCat "g" "x" "y" [0, 1] [] (fun _ => 0) 2 0 =
      some ([Trace.scatter [1] [2] 0 "7" "y1", Trace.bar [0, 1] [1] 0 (3/10) "7"],
        [0], 1) := by
    with_unfolding_all decide
  have h := create_cat_plots_two_traces_per_value dfCat "g" "x" "y" [0, 1] []
    (fun _ => 0) 2 0 _ _ _ hrun
  have hv : (uniqueList (dfCat.rows.map (fun r => r "g"))).get? 0 = some 7 := by
    with_unfolding_all decide
  obtain ⟨hk, -, -, hn⟩ := h.2 0 7 hv
  refine ⟨hrun, h.1, ?_, ?_⟩
  · simpa using hk
  · have : toString (7 : ℚ) = "7" := by with_unfolding_all decide
    simpa [this] using hn

/-- C4: for a non-empty dataframe the bar heights computed by
`create_dist` from supplied bin edges are exactly `count_i / len(df)`
(the expression `(count * 100 / len(df)) * 0.01` normalises the per-bin
counts by the total row count); `create_cat_plots` applies the same
normalisation by the length of the *full* dataframe to each per-category
histogram. -/
theorem histogram_heights_normalised :
    (∀ (df : DataFrame) (x_var : String) (color : ℕ) (x_bar : List ℚ) (p : ℚ),
        df.rows ≠ [] →
        ∀ out, create_dist df x_var color (some x_bar) p = some out →
          out.1.yvals = (histCounts x_bar (df.rows.map (fun r => r x_var))).map
            (fun cnt : ℕ => (cnt : ℚ) / (df.rows.length : ℚ))) ∧
    (∀ (df : DataFrame) (cv xv yv : String) (x_bar : List ℚ) (used : List ℕ)
        (rand : ℕ → ℕ) (fuel pos : ℕ),
        df.rows ≠ [] →
        ∀ ts used2 pos2,
          create_cat_plots df cv xv yv x_bar used rand fuel pos = some (ts, used2, pos2) →
          ∀ i v, (uniqueList (df.rows.map (fun r => r cv))).get? i = some v →
            (ts.get? (2 * i + 1)).map Trace.yvals =
              some ((histCounts x_bar ((df.rows.filter (fun r => r cv == v)).map
                  (fun r => r xv))).map
                (fun cnt : ℕ => (cnt : ℚ) / (df.rows.length : ℚ)))) := by
  constructor
  · intro df x_var color x_bar p _ out h
    by_cases hx : df.hasCol x_var
    · simp only [create_dist, hx, if_true] at h
      cases hm : monotoneEdges x_bar with
      | false => rw [hm] at h; simp at h
      | true =>
        rw [hm] at h
        simp only [if_true, Option.some.injEq] at h
        rw [← h]
        simp only [Trace.yvals]
        exact List.map_congr_left (fun cnt _ => yNorm_eq _ _)
    · simp [create_dist, hx] at h
  · intro df cv xv yv x_bar used rand fuel pos _ ts used2 pos2 h i v hiv
    rw [create_cat_plots] at h
    by_cases hcols : df.hasCol cv ∧ df.hasCol "cat" ∧ df.hasCol xv ∧ df.hasCol yv
    · rw [if_pos hcols] at h
      obtain ⟨-, hget⟩ := cat_plots_loop_spec df cv xv yv x_bar rand fuel
        (uniqueList (df.rows.map (fun r => r cv))) used pos ts used2 pos2 h
      obtain ⟨-, -, -, -, hy⟩ := hget i v hiv
      rw [hy]
      congr 1
      exact List.map_congr_left (fun cnt _ => yNorm_eq _ _)
    · rw [if_neg hcols] at h
      exact absurd h (by simp)

/-- C4 witness: concrete instantiations of both parts (one-row
dataframes, explicit bin edges `[0, 1]`). -/
theorem histogram_heights_normalised_witness :
    ((Trace.bar [0, 1] [1] 0 (3/10) "Dist. x", ([0, 1] : List ℚ)).1.yvals =
      (histCounts [0, 1] (dfHalf.rows.map (fun r => r "x"))).map
        (fun cnt : ℕ => (cnt : ℚ) / (dfHalf.rows.length : ℚ))) ∧
    (([Trace.scatter [1] [2] 0 "7" "y1", Trace.bar [0, 1] [1] 0 (3/10) "7"].get? 1).map
        Trace.yvals =
      some ((histCounts [0, 1] ((dfCat.rows.filter (fun r => r "g" == 7)).map
          (fun r => r "x"))).map
        (fun cnt : ℕ => (cnt : ℚ) / (dfCat.rows.length : ℚ)))) := by
  constructor
  · exact histogram_heights_normalised.1 dfHalf "x" 0 [0, 1] (1/10) (List.cons_ne_nil _ _)
      (Trace.bar [0, 1] [1] 0 (3/10) "Dist. x", [0, 1]) (by with_unfolding_all decide)
  · exact histogram_heights_normalised.2 dfCat "g" "x" "y" [0, 1] [] (fun _ => 0) 2 0
      (List.cons_ne_nil _ _) [Trace.scatter [1] [2] 0 "7" "y1", Trace.bar [0, 1] [1] 0 (3/10) "7"]
      [0] 1 (by with_unfolding_all decide) 0 7 (by with_unfolding_all decide)

theorem monotoneEdges_cons {a b : ℚ} {r : List ℚ} :
    monotoneEdges (a :: b :: r) = true ↔ a ≤ b ∧ monotoneEdges (b :: r) = true := by
  simp [monotoneEdges]

theorem monotoneEdges_of_get? : ∀ (l : List ℚ),
    (∀ (i : ℕ) (a b : ℚ), l.get? i = some a → l.get? (i + 1) = some b → a ≤ b) →
    monotoneEdges l = true := by
  intro l
  induction l with
  | nil => intro _; rfl
  | cons a t ih =>
    intro h
    cases t with
    | nil => rfl
    | cons b t' =>
      have hab : a ≤ b := h 0 a b rfl rfl
      have ht : monotoneEdges (b :: t') = true :=
        ih (fun i a' b' ha hb => h (i + 1) a' b' ha hb)
      exact monotoneEdges_cons.mpr ⟨hab, ht⟩

theorem arangeQ_get?_eq {start stop step : ℚ} (h : 0 < step) (i : ℕ) :
    (arangeQ start stop step).get? i =
      if i < Int.toNat ⌈(stop - start) / step⌉ then some (start + (i : ℚ) * step)
      else none := by
  rw [arangeQ, if_pos h]
  by_cases hi : i < Int.toNat ⌈(stop - start) / step⌉
  · rw [if_pos hi, List.get?_map, List.get?_range hi, Option.map_some']
  · rw [if_neg hi, List.get?_map, List.get?_eq_none.mpr, Option.map_none']
    rw [List.length_range]
    omega

theorem arangeQ_length {start stop step : ℚ} (h : 0 < step) :
    (arangeQ start stop step).length = Int.toNat ⌈(stop - start) / step⌉ := by
  rw [arangeQ, if_pos h, List.length_map, List.length_range]

theorem histIndexAux_cover {v : ℚ} :
    ∀ (t : List ℚ) (a b : ℚ) (j : ℕ), monotoneEdges (a :: b :: t) = true →
      a ≤ v → (∀ last, (a :: b :: t).getLast? = some last → v ≤ last) →
      (histIndexAux (a :: b :: t) j v).isSome = true := by
  intro t
  induction t with
  | nil =>
    intro a b j _ hav hlast
    have hvb : v ≤ b := hlast b rfl
    simp [histIndexAux, hav, hvb]
  | cons c t' ih =>
    intro a b j hmono hav hlast
    obtain ⟨-, hmono'⟩ := monotoneEdges_cons.mp hmono
    by_cases hvb : v < b
    · simp [histIndexAux, hav, hvb]
    · have hbv : b ≤ v := le_of_not_lt hvb
      have : histIndexAux (a :: b :: c :: t') j v = histIndexAux (b :: c :: t') (j + 1) v := by
        simp [histIndexAux, hvb]
      rw [this]
      exact ih b c (j + 1) hmono' hbv (fun last hl => hlast last hl)

/-- C2 (amended): with a positive column maximum `m` and
`interval_perc = p ∈ (0, 1]`, `create_dist` with `x_bar=None` constructs
the edges `np.arange(0, ceil(m/100)*100 + ceil(m/100), p * ceil(m/100))`:
they start at 0, are equally spaced with step `p * ceil(m/100)`, stay
below the stop value, and the last edge is at least `m`; every
*nonnegative* value up to `m` falls in some interval (negative values lie
outside the bins, which is the one point on which the original claim
fails). -/
theorem create_dist_bin_edges (df : DataFrame) (x_var : String) (color : ℕ) (p m : ℚ)
    (hx : df.hasCol x_var = true)
    (hm : maxQ (df.rows.map (fun r => r x_var)) = some m)
    (hm0 : 0 < m) (hp0 : 0 < p) (hp1 : p ≤ 1) :
    (create_dist df x_var color none p).map Prod.snd =
      some (arangeQ 0 (distStop m) (distStep p m)) ∧
    (arangeQ 0 (distStop m) (distStep p m)).get? 0 = some 0 ∧
    (∀ i a b, (arangeQ 0 (distStop m) (distStep p m)).get? i = some a →
      (arangeQ 0 (distStop m) (distStep p m)).get? (i + 1) = some b →
      b - a = distStep p m) ∧
    (arangeQ 0 (distStop m) (distStep p m)).all (fun e => decide (e < distStop m)) = true ∧
    arangeQ 0 (distStop m) (distStep p m) ≠ [] ∧
    (∀ last, (arangeQ 0 (distStop m) (distStep p m)).getLast? = some last → m ≤ last) ∧
    (∀ v : ℚ, 0 ≤ v → v ≤ m →
      (histIndex (arangeQ 0 (distStop m) (distStep p m)) v).isSome = true) := by
  have hT0 : (0 : ℤ) < ⌈m / 100⌉ := Int.ceil_pos.mpr (by positivity)
  have hTQ : (1 : ℚ) ≤ ((⌈m / 100⌉ : ℤ) : ℚ) := by exact_mod_cast hT0
  have hT0Q : (0 : ℚ) < ((⌈m / 100⌉ : ℤ) : ℚ) := lt_of_lt_of_le one_pos hTQ
  have hstep : 0 < distStep p m := mul_pos hp0 hT0Q
  have hstopdef : distStop m =
      ((⌈m / 100⌉ : ℤ) : ℚ) * 100 + ((⌈m / 100⌉ : ℤ) : ℚ) := rfl
  have hstepdef : distStep p m = p * ((⌈m / 100⌉ : ℤ) : ℚ) := rfl
  have hstop : 0 < distStop m := by rw [hstopdef]; nlinarith
  have hstepT : distStep p m ≤ ((⌈m / 100⌉ : ℤ) : ℚ) := by
    rw [hstepdef]; nlinarith
  have hmT : m ≤ 100 * ((⌈m / 100⌉ : ℤ) : ℚ) := by
    have h1 : m / 100 ≤ ((⌈m / 100⌉ : ℤ) : ℚ) := Int.le_ceil _
    nlinarith
  have hq2 : (2 : ℚ) ≤ distStop m / distStep p m := by
    rw [le_div_iff hstep, hstopdef, hstepdef]
    nlinarith
  have hceil2 : (2 : ℤ) ≤ ⌈distStop m / distStep p m⌉ := by
    exact_mod_cast le_trans hq2 (Int.le_ceil _)
  have hn2 : 2 ≤ Int.toNat ⌈distStop m / distStep p m⌉ := by omega
  have hqn : distStop m / distStep p m ≤ ((Int.toNat ⌈distStop m / distStep p m⌉ : ℕ) : ℚ) := by
    have h0 : (0 : ℤ) ≤ ⌈distStop m / distStep p m⌉ := by omega
    have hcast : ((Int.toNat ⌈distStop m / distStep p m⌉ : ℕ) : ℚ) =
        ((⌈distStop m / distStep p m⌉ : ℤ) : ℚ) := by
      exact_mod_cast congrArg (fun z : ℤ => (z : ℚ)) (Int.toNat_of_nonneg h0)
    rw [hcast]
    exact Int.le_ceil _
  have harange_len : (arangeQ 0 (distStop m) (distStep p m)).length =
      Int.toNat ⌈distStop m / distStep p m⌉ := by
    rw [arangeQ_length hstep, sub_zero]
  have hget : ∀ i, (arangeQ 0 (distStop m) (distStep p m)).get? i =
      if i < Int.toNat ⌈distStop m / distStep p m⌉
      then some ((i : ℚ) * distStep p m) else none := by
    intro i
    rw [arangeQ_get?_eq hstep i, sub_zero]
    by_cases hi : i < Int.toNat ⌈distStop m / distStep p m⌉
    · rw [if_pos hi, if_pos hi, zero_add]
    · rw [if_neg hi, if_neg hi]
  have hmono : monotoneEdges (arangeQ 0 (distStop m) (distStep p m)) = true := by
    apply monotoneEdges_of_get?
    intro i a b ha hb
    rw [hget i] at ha
    rw [hget (i + 1)] at hb
    by_cases hi : i < Int.toNat ⌈distStop m / distStep p m⌉
    · rw [if_pos hi] at ha
      by_cases hi1 : i + 1 < Int.toNat ⌈distStop m / distStep p m⌉
      · rw [if_pos hi1] at hb
        obtain rfl : (i : ℚ) * distStep p m = a := Option.some.inj ha
        obtain rfl : ((i + 1 : ℕ) : ℚ) * distStep p m = b := Option.some.inj hb
        have hcast : ((i + 1 : ℕ) : ℚ) = (i : ℚ) + 1 := by push_cast; ring
        nlinarith
      · rw [if_neg hi1] at hb
        exact absurd hb (by simp)
    · rw [if_neg hi] at ha
      exact absurd ha (by simp)
  have hlastv : ∀ last, (arangeQ 0 (distStop m) (distStep p m)).getLast? = some last →
      m ≤ last := by
    intro last hlast
    have hne : arangeQ 0 (distStop m) (distStep p m) ≠ [] := by
      apply List.length_pos.mp
      rw [harange_len]
      omega
    rw [List.getLast?_eq_getElem?, ← List.get?_eq_getElem?, harange_len, hget] at hlast
    rw [if_pos (by omega)] at hlast
    obtain rfl : ((Int.toNat ⌈distStop m / distStep p m⌉ - 1 : ℕ) : ℚ) * distStep p m
        = last := Option.some.inj hlast
    have hsn : distStop m ≤
        ((Int.toNat ⌈distStop m / distStep p m⌉ : ℕ) : ℚ) * distStep p m :=
      (div_le_iff hstep).mp hqn
    have hcast : ((Int.toNat ⌈distStop m / distStep p m⌉ - 1 : ℕ) : ℚ) =
        ((Int.toNat ⌈distStop m / distStep p m⌉ : ℕ) : ℚ) - 1 := by
      have h1 : 1 ≤ Int.toNat ⌈distStop m / distStep p m⌉ := by omega
      push_cast [Nat.cast_sub h1]
      ring
    rw [hcast]
    nlinarith
  refine ⟨?_, ?_, ?_, ?_, ?_, hlastv, ?_⟩
  · simp only [create_dist, hx, if_true, hm]
    rw [if_pos ⟨hstep, hstop⟩]
    rw [← hstopdef, ← hstepdef]
    simp only [hmono, if_true, Option.map_some']
  · rw [hget 0, if_pos (by omega)]
    norm_num
  · intro i a b ha hb
    rw [hget i] at ha
    rw [hget (i + 1)] at hb
    by_cases hi : i < Int.toNat ⌈distStop m / distStep p m⌉
    · by_cases hi1 : i + 1 < Int.toNat ⌈distStop m / distStep p m⌉
      · rw [if_pos hi] at ha
        rw [if_pos hi1] at hb
        obtain rfl : (i : ℚ) * distStep p m = a := Option.some.inj ha
        obtain rfl : ((i + 1 : ℕ) : ℚ) * distStep p m = b := Option.some.inj hb
        push_cast
        ring
      · rw [if_neg hi1] at hb
        exact absurd hb (by simp)
    · rw [if_neg hi] at ha
      exact absurd ha (by simp)
  · simp only [List.all_eq_true, decide_eq_true_eq]
    intro e he
    rw [arangeQ, if_pos hstep] at he
    simp only [List.mem_map, List.mem_range] at he
    obtain ⟨k, hk, rfl⟩ := he
    rw [sub_zero] at hk
    have hkz : ((k : ℤ) : ℚ) + 1 ≤ ((⌈distStop m / distStep p m⌉ : ℤ) : ℚ) := by
      have : (k : ℤ) + 1 ≤ ⌈distStop m / distStep p m⌉ := by omega
      exact_mod_cast this
    have hceil_lt : ((⌈distStop m / distStep p m⌉ : ℤ) : ℚ) <
        distStop m / distStep p m + 1 := Int.ceil_lt_add_one _
    have hkq : (k : ℚ) < distStop m / distStep p m := by
      push_cast at hkz
      linarith
    have := (lt_div_iff hstep).mp hkq
    linarith
  · apply List.length_pos.mp
    rw [harange_len]
    omega
  · intro v hv0 hvm
    have hlen2 : 2 ≤ (arangeQ 0 (distStop m) (distStep p m)).length := by
      rw [harange_len]; omega
    obtain ⟨a, b, t, hE⟩ :
        ∃ a b t, arangeQ 0 (distStop m) (distStep p m) = a :: b :: t := by
      cases hl : arangeQ 0 (distStop m) (distStep p m) with
      | nil => rw [hl] at hlen2; simp at hlen2
      | cons a t1 =>
        cases t1 with
        | nil => rw [hl] at hlen2; simp at hlen2
        | cons b t => exact ⟨a, b, t, rfl⟩
    have ha0 : a = 0 := by
      have h0 := hget 0
      rw [hE, if_pos (by omega)] at h0
      simp only [List.get?, Option.some.injEq] at h0
      rw [h0]
      norm_num
    rw [histIndex, hE]
    apply histIndexAux_cover t a b 0 (by rw [← hE]; exact hmono)
    · rw [ha0]; exact hv0
    · intro last hl
      exact le_trans hvm (hlastv last (by rw [hE]; exact hl))

set_option maxRecDepth 200000 in
/-- C2 counterexample: on a dataframe with positive maximum 50 and
`interval_perc = 0.1`, the data value `-5` lies in no interval of the
constructed bin edges (`np.histogram` drops it), so "every data value is
covered by some interval" fails as stated. -/
theorem create_dist_negative_value_not_covered :
    maxQ (dfNeg.rows.map (fun r => r "x")) = some 50 ∧
    ((0 : ℚ) < 50 ∧ (0 : ℚ) < 1/10 ∧ (1/10 : ℚ) ≤ 1) ∧
    (-5 : ℚ) ∈ dfNeg.rows.map (fun r => r "x") ∧
    (create_dist dfNeg "x" 0 none (1/10)).map (fun pr => histIndex pr.2 (-5)) =
      some none := by
  refine ⟨by with_unfolding_all decide, by norm_num, by with_unfolding_all decide, ?_⟩
  with_unfolding_all decide

set_option maxRecDepth 200000 in
/-- C2 witness: the amended theorem instantiated on a one-row dataframe
with `x = 50` and `interval_perc = 0.1`: the edges run from 0 in steps
of `1/10`, the last edge is `100.9 ≥ 50`, and `1/2` is covered. -/
theorem create_dist_bin_edges_witness :
    ((create_dist df50 "x" 0 none (1/10)).map Prod.snd =
      some (arangeQ 0 (distStop 50) (distStep (1/10) 50))) ∧
    (arangeQ 0 (distStop 50) (distStep (1/10) 50)).get? 0 = some 0 ∧
    ((1/10 : ℚ) - 0 = distStep (1/10) 50) ∧
    ((arangeQ 0 (distStop 50) (distStep (1/10) 50)).all
      (fun e => decide (e < distStop 50)) = true) ∧
    arangeQ 0 (distStop 50) (distStep (1/10) 50) ≠ [] ∧
    ((50 : ℚ) ≤ 1009/10) ∧
    (histIndex (arangeQ 0 (distStop 50) (distStep (1/10) 50)) (1/2)).isSome = true := by
  have h := create_dist_bin_edges df50 "x" 0 (1/10) 50 (by decide)
    (by with_unfolding_all decide) (by norm_num) (by norm_num) (by norm_num)
  exact ⟨h.1, h.2.1,
    h.2.2.1 0 0 (1/10) (by with_unfolding_all decide) (by with_unfolding_all decide),
    h.2.2.2.1, h.2.2.2.2.1,
    h.2.2.2.2.2.1 (1009/10) (by with_unfolding_all decide),
    h.2.2.2.2.2.2 (1/2) (by norm_num) (by norm_num)⟩

theorem create_dist_bar_kind (df : DataFrame) (x_var : String) (color : ℕ)
    (x_bar? : Option (List ℚ)) (p : ℚ) :
    ∀ out, create_dist df x_var color x_bar? p = some out → out.1.kind = "bar" := by
  intro out h
  simp only [create_dist] at h
  split at h
  · split at h
    · exact absurd h (by simp)
    · split at h
      · simp only [Option.some.injEq] at h
        rw [← h]
        rfl
      · exact absurd h (by simp)
  · exact absurd h (by simp)

theorem secondPart_shape (df2 : DataFrame) (xv : String) (sy : Option String)
    (x_bar : List ℚ) (rand : ℕ → ℕ) (fuel : ℕ) (used : List ℕ) (pos : ℕ) :
    ∀ out, secondPart df2 xv sy x_bar rand fuel used pos = some out →
      out.2.1 = sy ∧ (sy = none → out.1 = []) ∧
      (∀ s, sy = some s → out.1.map Trace.kind = ["scatter:y2", "bar"]) := by
  intro out h
  cases sy with
  | none =>
    simp only [secondPart, Option.some.injEq] at h
    rw [← h]
    exact ⟨rfl, fun _ => rfl, fun s hs => by exact absurd hs (by simp)⟩
  | some s =>
    simp only [secondPart] at h
    cases h1 : avg_cats df2 xv s with
    | none => simp only [h1] at h; exact Option.noConfusion h
    | some w1 =>
      obtain ⟨x2, y2⟩ := w1
      simp only [h1] at h
      cases h2 : find_color rand pos fuel used with
      | none => simp only [h2] at h; exact Option.noConfusion h
      | some w2 =>
        obtain ⟨c2, used', pos'⟩ := w2
        simp only [h2] at h
        cases h3 : create_dist df2 s c2 (some x_bar) (1/10) with
        | none => simp only [h3] at h; exact Option.noConfusion h
        | some w3 =>
          obtain ⟨tb2, xb2⟩ := w3
          simp only [h3, Option.some.injEq] at h
          have hkind := create_dist_bar_kind df2 s c2 (some x_bar) (1/10) (tb2, xb2) h3
          rw [← h]
          refine ⟨rfl, fun hn => by exact absurd hn (by simp), fun s' hs' => ?_⟩
          simp only [List.map]
          rw [hkind]
          exact (by decide : ((Trace.scatter [] [] 0 "" "y2").kind = "scatter:y2")) ▸ rfl

theorem create_figure_shape (df : DataFrame) (xv yv xt yt t : String)
    (sy cv : Option String) (sb : Bool) (rand : ℕ → ℕ) (fuel : ℕ) :
    ∀ fig, create_figure df xv yv xt yt t sy cv sb rand fuel = some fig →
      fig.filename = fixedPath t ∧
      fig.layout.yaxis2 = sy ∧
      ∃ extraKinds catsKinds,
        fig.data.map Trace.kind = ["bar", "scatter:y1"] ++ extraKinds ++ catsKinds ∧
        (sy = none → extraKinds = []) ∧
        (∀ s, sy = some s → extraKinds = ["scatter:y2", "bar"]) ∧
        (cv = none → catsKinds = []) := by
  intro fig h
  simp only [create_figure] at h
  cases h1 : find_color rand 0 fuel [] with
  | none => simp only [h1] at h; exact Option.noConfusion h
  | some w1 =>
    obtain ⟨color, used1, pos1⟩ := w1
    simp only [h1] at h
    cases h2 : create_dist df xv color none (1/10) with
    | none => simp only [h2] at h; exact Option.noConfusion h
    | some w2 =>
      obtain ⟨trace_bar, x_bar⟩ := w2
      simp only [h2] at h
      cases h3 : cat_clients df xv x_bar with
      | none => simp only [h3] at h; exact Option.noConfusion h
      | some df2 =>
        simp only [h3] at h
        cases h4 : avg_cats df2 xv yv with
        | none => simp only [h4] at h; exact Option.noConfusion h
        | some w4 =>
          obtain ⟨xm, ym⟩ := w4
          simp only [h4] at h
          cases h5 : secondPart df2 xv sy x_bar rand fuel used1 pos1 with
          | none => simp only [h5] at h; exact Option.noConfusion h
          | some w5 =>
            obtain ⟨extra, y2t, used2, pos2⟩ := w5
            simp only [h5] at h
            cases h6 : catPart df2 cv xv yv x_bar rand fuel used2 pos2 with
            | none => simp only [h6] at h; exact Option.noConfusion h
            | some cats =>
              simp only [h6, Option.some.injEq] at h
              subst h
              obtain ⟨hy2, hnone, hsome⟩ :=
                secondPart_shape df2 xv sy x_bar rand fuel used1 pos1
                  (extra, y2t, used2, pos2) h5
              have hbar : trace_bar.kind = "bar" :=
                create_dist_bar_kind df xv color none (1/10) (trace_bar, x_bar) h2
              have hs1 : (create_scatter xm ym xv color 1).kind = "scatter:y1" := by
                simp only [create_scatter, Trace.kind]
                decide
              refine ⟨rfl, hy2, extra.map Trace.kind, cats.map Trace.kind, ?_, ?_, ?_, ?_⟩
              · simp only [List.append_eq, List.nil_append, List.map_append, List.map,
                  hbar, hs1, List.cons_append, List.append_assoc]
              · intro hn
                have he := hnone hn
                simp only at he
                rw [he]
                rfl
              · intro s hs
                exact hsome s hs
              · intro hcv
                subst hcv
                simp only [catPart, Option.some.injEq] at h6
                rw [← h6]
                rfl

/-- C6: whatever the dataframe, the variables, the optional secondary
axis or categorical column and the random colour draws, any figure
`create_figure` hands to `plotly.offline.plot` carries the hard-coded
Windows output path with only the title interpolated. -/
theorem create_figure_fixed_filename (df : DataFrame)
    (x_var y_var x_title y_title title : String)
    (second_y_var categorical_var : Option String) (stack_bar : Bool)
    (rand : ℕ → ℕ) (fuel : ℕ) :
    ∀ fig, create_figure df x_var y_var x_title y_title title second_y_var
        categorical_var stack_bar rand fuel = some fig →
      fig.filename = fixedPath title := by
  intro fig h
  exact (create_figure_shape df x_var y_var x_title y_title title second_y_var
    categorical_var stack_bar rand fuel fig h).1

set_option maxRecDepth 1000000 in
/-- C6 witness: a concrete successful `create_figure` run whose output
filename is the fixed path with title `"t"`. -/
theorem create_figure_fixed_filename_witness :
    (create_figure dfEx "x" "y" "a" "b" "t" none none false (fun k => k % 8) 8).map
      Figure.filename = some (fixedPath "t") := by
  have hs : (create_figure dfEx "x" "y" "a" "b" "t" none none false
      (fun k => k % 8) 8).isSome = true := by
    with_unfolding_all decide
  obtain ⟨fig, hfig⟩ := Option.isSome_iff_exists.mp hs
  rw [hfig, Option.map_some']
  exact congrArg some (create_figure_fixed_filename dfEx "x" "y" "a" "b" "t" none none
    false (fun k => k % 8) 8 fig hfig)

/-- C7: the secondary axis is optional and leaves the binning untouched:
with `second_y_var=None` the layout has no `yaxis2` entry and the data
starts with exactly the base bar and scatter (and nothing else when
there is no categorical variable); with `second_y_var` given, the layout
gains `yaxis2`, and exactly two traces — a scatter on axis `y2` and a
bar — are appended before any categorical traces; and `create_dist`
called with an already-computed `x_bar` returns that same edge array
unchanged, so the intervals are identical with and without the secondary
variable. -/
theorem create_figure_second_axis :
    (∀ (df : DataFrame) (xv yv xt yt t : String) (cv : Option String) (sb : Bool)
        (rand : ℕ → ℕ) (fuel : ℕ),
        optAll (fun fg => fg.layout.yaxis2 = none)
          (create_figure df xv yv xt yt t none cv sb rand fuel)) ∧
    (∀ (df : DataFrame) (xv yv xt yt t : String) (cv : Option String) (sb : Bool)
        (rand : ℕ → ℕ) (fuel : ℕ),
        optAll (fun fg => (fg.data.map Trace.kind).take 2 = ["bar", "scatter:y1"])
          (create_figure df xv yv xt yt t none cv sb rand fuel)) ∧
    (∀ (df : DataFrame) (xv yv xt yt t : String) (sb : Bool)
        (rand : ℕ → ℕ) (fuel : ℕ),
        optAll (fun fg => fg.data.map Trace.kind = ["bar", "scatter:y1"])
          (create_figure df xv yv xt yt t none none sb rand fuel)) ∧
    (∀ (df : DataFrame) (xv yv xt yt t s : String) (cv : Option String) (sb : Bool)
        (rand : ℕ → ℕ) (fuel : ℕ),
        optAll (fun fg => fg.layout.yaxis2 = some s ∧
            (fg.data.map Trace.kind).take 4 = ["bar", "scatter:y1", "scatter:y2", "bar"])
          (create_figure df xv yv xt yt t (some s) cv sb rand fuel)) ∧
    (∀ (df : DataFrame) (xv yv xt yt t s : String) (sb : Bool)
        (rand : ℕ → ℕ) (fuel : ℕ),
        optAll (fun fg =>
            fg.data.map Trace.kind = ["bar", "scatter:y1", "scatter:y2", "bar"])
          (create_figure df xv yv xt yt t (some s) none sb rand fuel)) ∧
    (∀ (df : DataFrame) (xv : String) (c : ℕ) (xb : List ℚ) (p : ℚ) out,
        create_dist df xv c (some xb) p = some out → out.2 = xb) := by
  refine ⟨?_, ?_, ?_, ?_, ?_, ?_⟩
  · intro df xv yv xt yt t cv sb rand fuel
    cases hc : create_figure df xv yv xt yt t none cv sb rand fuel with
    | none => exact trivial
    | some fig =>
      exact (create_figure_shape df xv yv xt yt t none cv sb rand fuel fig hc).2.1
  · intro df xv yv xt yt t cv sb rand fuel
    cases hc : create_figure df xv yv xt yt t none cv sb rand fuel with
    | none => exact trivial
    | some fig =>
      obtain ⟨-, -, ek, ck, hkinds, hek, -, -⟩ :=
        create_figure_shape df xv yv xt yt t none cv sb rand fuel fig hc
      rw [hek rfl] at hkinds
      show (fig.data.map Trace.kind).take 2 = ["bar", "scatter:y1"]
      rw [hkinds]
      simp [List.take]
  · intro df xv yv xt yt t sb rand fuel
    cases hc : create_figure df xv yv xt yt t none none sb rand fuel with
    | none => exact trivial
    | some fig =>
      obtain ⟨-, -, ek, ck, hkinds, hek, -, hck⟩ :=
        create_figure_shape df xv yv xt yt t none none sb rand fuel fig hc
      rw [hek rfl, hck rfl] at hkinds
      show fig.data.map Trace.kind = ["bar", "scatter:y1"]
      rw [hkinds]
      rfl
  · intro df xv yv xt yt t s cv sb rand fuel
    cases hc : create_figure df xv yv xt yt t (some s) cv sb rand fuel with
    | none => exact trivial
    | some fig =>
      obtain ⟨-, hy2, ek, ck, hkinds, -, hes, -⟩ :=
        create_figure_shape df xv yv xt yt t (some s) cv sb rand fuel fig hc
      rw [hes s rfl] at hkinds
      refine ⟨hy2, ?_⟩
      rw [hkinds]
      simp [List.take]
  · intro df xv yv xt yt t s sb rand fuel
    cases hc : create_figure df xv yv xt yt t (some s) none sb rand fuel with
    | none => exact trivial
    | some fig =>
      obtain ⟨-, -, ek, ck, hkinds, -, hes, hck⟩ :=
        create_figure_shape df xv yv xt yt t (some s) none sb rand fuel fig hc
      rw [hes s rfl, hck rfl] at hkinds
      show fig.data.map Trace.kind = ["bar", "scatter:y1", "scatter:y2", "bar"]
      rw [hkinds]
      rfl
  · intro df xv c xb p out h
    simp only [create_dist] at h
    split at h
    · split at h
      · simp only [Option.some.injEq] at h
        rw [← h]
      · exact absurd h (by simp)
    · exact absurd h (by simp)

set_option maxRecDepth 1000000 in
/-- C7 witness: the parts of `create_figure_second_axis` instantiated on
the concrete dataframe `dfEx`, together with a concrete successful
secondary-axis run and a concrete `create_dist` call on supplied edges
returning those edges unchanged. -/
theorem create_figure_second_axis_witness :
    optAll (fun fg => fg.layout.yaxis2 = none)
      (create_figure dfEx "x" "y" "a" "b" "t" none none false (fun k => k % 8) 8) ∧
    optAll (fun fg => fg.data.map Trace.kind = ["bar", "scatter:y1"])
      (create_figure dfEx "x" "y" "a" "b" "t" none none false (fun k => k % 8) 8) ∧
    optAll (fun fg => fg.layout.yaxis2 = some "y" ∧
        (fg.data.map Trace.kind).take 4 = ["bar", "scatter:y1", "scatter:y2", "bar"])
      (create_figure dfEx "x" "y" "a" "b" "t" (some "y") none false (fun k => k % 8) 8) ∧
    (create_figure dfEx "x" "y" "a" "b" "t" (some "y") none false
      (fun k => k % 8) 8).isSome = true ∧
    ((Trace.bar [0, 1] [1] 0 (3/10) "Dist. x", ([0, 1] : List ℚ)).2 = [0, 1]) := by
  refine ⟨create_figure_second_axis.1 dfEx "x" "y" "a" "b" "t" none false
      (fun k => k % 8) 8,
    create_figure_second_axis.2.2.1 dfEx "x" "y" "a" "b" "t" false (fun k => k % 8) 8,
    create_figure_second_axis.2.2.2.1 dfEx "x" "y" "a" "b" "t" "y" none false
      (fun k => k % 8) 8, ?_,
    create_figure_second_axis.2.2.2.2.2 dfHalf "x" 0 [0, 1] (1/10)
      (Trace.bar [0, 1] [1] 0 (3/10) "Dist. x", [0, 1]) (by with_unfolding_all decide)⟩
  with_unfolding_all decide
